import Mathlib

/-!
Verification of the joystick button-map storage and controller-transformer
algorithms (`src/storage/ButtonMap.cpp`, `src/buttonmapper/ControllerTransformer.cpp`).

The C++ code is shallowly embedded: `std::map` values become association lists
(`bmSet` keeps the sorted `std::map` representation for the button map, whose
iteration order the code relies on), `std::vector` becomes `List`, in-place
mutation becomes explicit state passing, and the fallible external save
collaborator becomes a boolean parameter.
-/

namespace JOYSTICK

/-- The `JOYSTICK_DRIVER_PRIMITIVE_TYPE_*` tags of a driver primitive. -/
inductive PrimitiveType
  | unknown
  | button
  | hatDirection
  | semiaxis
  | motor
  | key
  deriving DecidableEq, Repr

/-- `ADDON::DriverPrimitive`: a reference to a physical input, compared by
structural equality of its type tag and identifying fields (the identifying
fields are collapsed to a driver index and a direction/keycode value; the
C++ `operator==` compares all fields exactly). -/
structure DriverPrimitive where
  ptype : PrimitiveType
  driverIndex : Nat
  dir : Int
  deriving DecidableEq, Repr

/-- `ADDON::DriverPrimitive()`: the default-constructed invalid primitive. -/
def DriverPrimitive.invalid : DriverPrimitive := ⟨PrimitiveType.unknown, 0, 0⟩

/-- The `JOYSTICK_FEATURE_TYPE_*` tags of a joystick feature. -/
inductive FeatureType
  | unknown
  | scalar
  | analogStick
  | accelerometer
  | motor
  | key
  deriving DecidableEq, Repr

/-- `ADDON::JoystickFeature`: a named feature with a type tag and its list of
primitive slots. -/
structure JoystickFeature where
  name : String
  ftype : FeatureType
  primitives : List DriverPrimitive
  deriving DecidableEq, Repr

/-- `JoystickFeature::Primitive(i)`: slot access; absent slots read as the
default (invalid) primitive. -/
def JoystickFeature.Primitive (f : JoystickFeature) (i : Nat) : DriverPrimitive :=
  f.primitives.getD i DriverPrimitive.invalid

/-- A feature is valid when some primitive slot is non-unknown (the predicate
of the erase pass at `ButtonMap.cpp:238-259`). -/
def JoystickFeature.hasValidPrimitive (f : JoystickFeature) : Bool :=
  f.primitives.any (fun p => p.ptype != PrimitiveType.unknown)

/-- The feature-matching lambda of `CControllerTransformer::AddControllerMap`
(`ControllerTransformer.cpp:88-117`): same feature type, then type-specific
slot comparison (slot indices: scalar primitive = 0; analog stick
up/down/right/left = 0..3; accelerometer X/Y/Z = 0..2). -/
def featureMatch (fromFeature feature : JoystickFeature) : Bool :=
  if fromFeature.ftype = feature.ftype then
    match feature.ftype with
    | FeatureType.scalar =>
        fromFeature.Primitive 0 == feature.Primitive 0
    | FeatureType.motor =>
        fromFeature.Primitive 0 == feature.Primitive 0
    | FeatureType.analogStick =>
        fromFeature.Primitive 0 == feature.Primitive 0 &&
        fromFeature.Primitive 1 == feature.Primitive 1 &&
        fromFeature.Primitive 2 == feature.Primitive 2 &&
        fromFeature.Primitive 3 == feature.Primitive 3
    | FeatureType.accelerometer =>
        fromFeature.Primitive 0 == feature.Primitive 0 &&
        fromFeature.Primitive 1 == feature.Primitive 1 &&
        fromFeature.Primitive 2 == feature.Primitive 2
    | _ => false
  else false

/-- The inner primitive pass of `CButtonMap::Sanitize` (`ButtonMap.cpp:186-234`)
for one feature: `earlier` is every primitive of the already-processed earlier
features, `done` is the already-processed prefix of this feature's own slots
(both searched in place, exactly as the C++ searches the mutated vectors).
An unknown primitive is skipped; a primitive already seen in `earlier` or in
`done` is overwritten with the invalid primitive. -/
def sanitizePrimitives (earlier : List DriverPrimitive) :
    List DriverPrimitive → List DriverPrimitive → List DriverPrimitive
  | _done, [] => []
  | done, p :: rest =>
    if p.ptype = PrimitiveType.unknown then
      p :: sanitizePrimitives earlier (p :: done) rest
    else if p ∈ earlier ∨ p ∈ done then
      DriverPrimitive.invalid :: sanitizePrimitives earlier (DriverPrimitive.invalid :: done) rest
    else
      p :: sanitizePrimitives earlier (p :: done) rest

/-- All primitive slots of a list of features. -/
def allPrimitives (fs : List JoystickFeature) : List DriverPrimitive :=
  fs.foldr (fun f acc => f.primitives ++ acc) []

/-- Sanitize one feature's primitive slots against the already-processed
earlier features `done` (`ButtonMap.cpp:182-234`). -/
def sanitizeFeature (done : List JoystickFeature) (f : JoystickFeature) : JoystickFeature :=
  { f with primitives := sanitizePrimitives (allPrimitives done) [] f.primitives }

/-- The outer feature pass of `CButtonMap::Sanitize` (`ButtonMap.cpp:180-235`):
each feature's primitives are sanitized against the already-processed (hence
already-mutated) earlier features, accumulated in `done`. -/
def sanitizePass : List JoystickFeature → List JoystickFeature → List JoystickFeature
  | _done, [] => []
  | done, f :: rest =>
    sanitizeFeature done f :: sanitizePass (sanitizeFeature done f :: done) rest

/-- `CButtonMap::Sanitize` (`ButtonMap.cpp:177-260`): null out duplicate
primitive claims (first claim wins), then erase features left with no valid
primitive. The controller id parameter is used only for logging and is
dropped. -/
def Sanitize (features : List JoystickFeature) : List JoystickFeature :=
  (sanitizePass [] features).filter (fun f => f.hasValidPrimitive)

/-- Lexicographic comparison of `std::string` keys and names: character-wise
lexicographic order on the string's characters (UTF-8 byte order and
codepoint order agree). -/
abbrev strLt (a b : String) : Prop := a.data < b.data

/-- `FeatureVector` (`std::vector<ADDON::JoystickFeature>`). -/
abbrev FeatureVector := List JoystickFeature

/-- `ButtonMap` (`std::map<std::string, FeatureVector>`), represented as its
sorted association list; `bmSet` keeps the representation canonical the way
`std::map` does. -/
abbrev ButtonMap := List (String × FeatureVector)

/-- `std::map` lookup in a `ButtonMap`. -/
def bmFind : ButtonMap → String → Option FeatureVector
  | [], _ => none
  | (k, v) :: rest, key => if k = key then some v else bmFind rest key

/-- `std::map` insert-or-assign in a `ButtonMap`, keeping keys sorted. -/
def bmSet : ButtonMap → String → FeatureVector → ButtonMap
  | [], key, v => [(key, v)]
  | (k, w) :: rest, key, v =>
    if strLt key k then (key, v) :: (k, w) :: rest
    else if k = key then (k, v) :: rest
    else (k, w) :: bmSet rest key v

/-- One insertion step of the `std::sort` at `ButtonMap.cpp:111-115` with
comparator `lhs.Name() < rhs.Name()` (insertion sort; `std::sort` leaves the
relative order of equal names unspecified, and no claim depends on it). -/
def insertByName (f : JoystickFeature) : List JoystickFeature → List JoystickFeature
  | [] => [f]
  | g :: rest =>
    if strLt g.name f.name then g :: insertByName f rest
    else f :: g :: rest

/-- Sort a feature vector by feature name ascending (`ButtonMap.cpp:111-115`). -/
def sortByName : List JoystickFeature → List JoystickFeature
  | [] => []
  | f :: rest => insertByName f (sortByName rest)

/-- The state of a `CButtonMap` store: the current map, the backup used by
revert, the modified flag and the refresh timestamp (the resource path and
device handle play no part in the embedded operations). -/
structure CButtonMap where
  buttonMap : ButtonMap
  originalButtonMap : ButtonMap
  bModified : Bool
  timestamp : Int
  deriving DecidableEq, Repr

/-- `CButtonMap::MapFeatures` (`ButtonMap.cpp:67-118`): snapshot a backup on
the first mutation, drop existing features whose name occurs among the new
features, prepend the new features (`insert` at `begin()`), sanitize, sort by
name, and set the modified flag. The axis-configuration propagation
(`ButtonMap.cpp:90-105`) only calls out to the device collaborator and does
not touch this state. -/
def MapFeatures (s : CButtonMap) (controllerId : String) (features : FeatureVector) :
    CButtonMap :=
  let original := if s.originalButtonMap = [] then s.buttonMap else s.originalButtonMap
  let myFeatures := (bmFind s.buttonMap controllerId).getD []
  let remaining := myFeatures.filter
    (fun f => ! features.any (fun newFeature => newFeature.name == f.name))
  let merged := features ++ remaining
  { buttonMap := bmSet s.buttonMap controllerId (sortByName (Sanitize merged))
    originalButtonMap := original
    bModified := true
    timestamp := s.timestamp }

/-- `CButtonMap::SaveButtonMap` (`ButtonMap.cpp:120-131`): the fallible backing
write is the boolean `saveOk`; on success the timestamp is stamped, the backup
cleared and the modified flag reset, on failure nothing changes. -/
def SaveButtonMap (s : CButtonMap) (saveOk : Bool) (now : Int) : CButtonMap × Bool :=
  if saveOk then
    ({ s with timestamp := now, originalButtonMap := [], bModified := false }, true)
  else
    (s, false)

/-- `CButtonMap::RevertButtonMap` (`ButtonMap.cpp:133-142`): restore from the
backup when one exists. -/
def RevertButtonMap (s : CButtonMap) : CButtonMap × Bool :=
  if s.originalButtonMap = [] then (s, false)
  else ({ s with buttonMap := s.originalButtonMap }, true)

/-- `CButtonMap::ResetButtonMap` (`ButtonMap.cpp:144-155`): `operator[]`
materializes the profile's entry, then a non-empty feature list is cleared in
place and saved; an empty one returns failure. -/
def ResetButtonMap (s : CButtonMap) (controllerId : String) (saveOk : Bool) (now : Int) :
    CButtonMap × Bool :=
  let features := (bmFind s.buttonMap controllerId).getD []
  let s1 : CButtonMap := { s with buttonMap := bmSet s.buttonMap controllerId features }
  if features = [] then (s1, false)
  else SaveButtonMap { s1 with buttonMap := bmSet s1.buttonMap controllerId [] } saveOk now

/-- Modelled from the spec: `ControllerTransformer.h` (the declarations of
`FeatureTranslation`, `FeatureMap`, `FeatureMaps`, `ControllerTranslation`)
is not under `src/`. A Translation entry is "an ordered pair (fromFeatureName,
toFeatureName)" (§3). -/
structure FeatureTranslation where
  fromFeature : String
  toFeature : String
  deriving DecidableEq, Repr

/-- Modelled from the spec: a Translation set is "a set of Translation entries
(no duplicate fromFeatureName)" (§3), so the `std::set<FeatureTranslation>` is
keyed by `fromFeature`; it is represented as its sorted association list. -/
abbrev FeatureMap := List FeatureTranslation

/-- Modelled from the spec: `std::set` insert into a Translation set —
inserted in key order, a no-op when an entry with the same `fromFeature` is
already present. -/
def featureMapInsert (e : FeatureTranslation) : FeatureMap → FeatureMap
  | [] => [e]
  | x :: rest =>
    if strLt e.fromFeature x.fromFeature then e :: x :: rest
    else if x.fromFeature = e.fromFeature then x :: rest
    else x :: featureMapInsert e rest

/-- `FeatureMaps` (`std::map<FeatureMap, unsigned int>`): the observation
counts of one Controller-pair bucket, listed in its iteration order. -/
abbrev FeatureMaps := List (FeatureMap × Nat)

/-- `ControllerTranslation`: the Controller-pair key (from, to). -/
abbrev ControllerTranslation := String × String

/-- Find the count entry of one Translation set in a bucket and increment it;
insert the set with count 1 when unseen (`ControllerTransformer.cpp:130-134`). -/
def fmsIncrement : FeatureMaps → FeatureMap → FeatureMaps
  | [], fm => [(fm, 1)]
  | (fm', c) :: rest, fm =>
    if fm' = fm then (fm', c + 1) :: rest
    else (fm', c) :: fmsIncrement rest fm

/-- `std::map` lookup in the translation table. -/
def cmFind : List (ControllerTranslation × FeatureMaps) → ControllerTranslation →
    Option FeatureMaps
  | [], _ => none
  | (k, v) :: rest, key => if k = key then some v else cmFind rest key

/-- `std::map` insert-or-assign in the translation table (new keys appended;
nothing iterates this outer map, so its entry order is immaterial). -/
def cmSet : List (ControllerTranslation × FeatureMaps) → ControllerTranslation →
    FeatureMaps → List (ControllerTranslation × FeatureMaps)
  | [], key, v => [(key, v)]
  | (k, w) :: rest, key, v =>
    if k = key then (k, v) :: rest else (k, w) :: cmSet rest key v

/-- The state of `CControllerTransformer`: the observed-device set (devices
are identified by opaque handles, here `Nat`, matching the pointer-identity
`std::set<DevicePtr>`) and the translation table `m_controllerMap`. -/
structure CControllerTransformer where
  observedDevices : List Nat
  controllerMap : List (ControllerTranslation × FeatureMaps)
  deriving DecidableEq, Repr

/-- `CControllerTransformer::AddControllerMap` (`ControllerTransformer.cpp:72-140`):
build the Translation set by matching each from-feature against the
to-features; when non-empty, bump its count in the bucket of `(from, to)`. -/
def AddControllerMap (s : CControllerTransformer) (controllerFrom : String)
    (featuresFrom : FeatureVector) (controllerTo : String) (featuresTo : FeatureVector) :
    CControllerTransformer × Bool :=
  let key : ControllerTranslation := (controllerFrom, controllerTo)
  let features : FeatureMap := featuresFrom.foldl
    (fun acc fromFeature =>
      match featuresTo.find? (fun f => featureMatch fromFeature f) with
      | some toFeat => featureMapInsert ⟨fromFeature.name, toFeat.name⟩ acc
      | none => acc) []
  if features = [] then (s, false)
  else
    let featureMaps := (cmFind s.controllerMap key).getD []
    ({ s with controllerMap := cmSet s.controllerMap key (fmsIncrement featureMaps features) },
     true)

/-- `CControllerTransformer::OnAdd` (`ControllerTransformer.cpp:37-57`): skip
when more than 200 devices were observed or the device was already seen;
otherwise record the device and add a controller map for every profile pair
`(from, to)` of the device's button map with `from < to` (the inner loop walks
the sorted map from the start while the key compares below `itTo`'s key). -/
def OnAdd (s : CControllerTransformer) (driverInfo : Nat) (buttonMap : ButtonMap) :
    CControllerTransformer :=
  if 200 < s.observedDevices.length then s
  else if driverInfo ∈ s.observedDevices then s
  else
    let s1 : CControllerTransformer :=
      { s with observedDevices := driverInfo :: s.observedDevices }
    buttonMap.foldl
      (fun acc itTo =>
        (buttonMap.takeWhile (fun itFrom => decide (strLt itFrom.1 itTo.1))).foldl
          (fun acc2 itFrom => (AddControllerMap acc2 itFrom.1 itFrom.2 itTo.1 itTo.2).1)
          acc)
      s1

/-- The selection loop of `CControllerTransformer::TransformFeatures`
(`ControllerTransformer.cpp:155-172`): `maxCount` starts at 0 and the best map
is replaced only on a strictly greater count. -/
def selectBest : FeatureMaps → Nat → Option FeatureMap → Option FeatureMap
  | [], _, best => best
  | fm :: rest, maxCount, best =>
    if maxCount < fm.2 then selectBest rest fm.2 (some fm.1)
    else selectBest rest maxCount best

/-- The most-frequently-observed Translation set of a bucket, ties resolved to
the first encountered in iteration order. -/
def selectBestMap (featureMaps : FeatureMaps) : Option FeatureMap :=
  selectBest featureMaps 0 none

/-- The application loop of `CControllerTransformer::TransformFeatures`
(`ControllerTransformer.cpp:180-197`): each entry of the winning Translation
set is read in reverse when `bSwap` is set, the resolved from-name is looked
up in the input features, and a hit is cloned and renamed to the resolved
to-name. -/
def applyTranslation (bSwap : Bool) (bestFeatureMap : FeatureMap)
    (features : FeatureVector) : FeatureVector :=
  bestFeatureMap.foldl
    (fun transformedFeatures featurePair =>
      let fromFeature := if bSwap then featurePair.toFeature else featurePair.fromFeature
      let toFeature := if bSwap then featurePair.fromFeature else featurePair.toFeature
      match features.find? (fun f => f.name == fromFeature) with
      | some itFrom => transformedFeatures ++ [{ itFrom with name := toFeature }]
      | none => transformedFeatures)
    []

/-- The canonical Controller-pair key of a transform query
(`ControllerTransformer.cpp:148-151`): roles are swapped when
`fromController >= toController`. -/
def transformNeedle (fromController toController : String) : ControllerTranslation :=
  if ! decide (strLt fromController toController) then (toController, fromController)
  else (fromController, toController)

/-- `CControllerTransformer::TransformFeatures` (`ControllerTransformer.cpp:142-199`):
canonicalize the direction (`bSwap` when `fromController >= toController`),
look the bucket up with `operator[]` — which inserts an empty bucket when the
key is absent — and apply the most-frequently-observed Translation set. -/
def TransformFeatures (s : CControllerTransformer) (fromController toController : String)
    (features : FeatureVector) : CControllerTransformer × FeatureVector :=
  let bSwap : Bool := ! decide (strLt fromController toController)
  let needle : ControllerTranslation := transformNeedle fromController toController
  let stateAndBucket : CControllerTransformer × FeatureMaps :=
    match cmFind s.controllerMap needle with
    | some featureMaps => (s, featureMaps)
    | none => ({ s with controllerMap := s.controllerMap ++ [(needle, [])] }, [])
  match selectBestMap stateAndBucket.2 with
  | none => (stateAndBucket.1, [])
  | some best => (stateAndBucket.1, applyTranslation bSwap best features)

/-- A concrete button-primitive fixture used by the concrete instances below. -/
def pButton (i : Nat) : DriverPrimitive := ⟨PrimitiveType.button, i, 0⟩

/-- A concrete one-slot scalar feature fixture used by the concrete instances
below. -/
def scalarFeature (n : String) (i : Nat) : JoystickFeature :=
  ⟨n, FeatureType.scalar, [pButton i]⟩

/-- No valid (non-unknown) primitive occurs twice in the list. -/
def NoDupValid (ps : List DriverPrimitive) : Prop :=
  ps.Pairwise (fun p q => p = q → p.ptype = PrimitiveType.unknown)

/-- Two features claim no valid (non-unknown) primitive in common. -/
def FeatureDisjoint (f g : JoystickFeature) : Prop :=
  ∀ p : DriverPrimitive, p.ptype ≠ PrimitiveType.unknown →
    p ∈ f.primitives → p ∉ g.primitives

theorem bmFind_bmSet_self (m : ButtonMap) (k : String) (v : FeatureVector) :
    bmFind (bmSet m k v) k = some v := by
  induction m with
  | nil => simp [bmSet, bmFind]
  | cons e rest ih =>
    obtain ⟨k₀, w⟩ := e
    rw [bmSet]
    by_cases hlt : strLt k k₀
    · rw [if_pos hlt]; simp [bmFind]
    · rw [if_neg hlt]
      by_cases heq : k₀ = k
      · rw [if_pos heq]; simp [bmFind, heq]
      · rw [if_neg heq]
        simp only [bmFind]
        rw [if_neg heq]
        exact ih

theorem bmFind_bmSet_ne (m : ButtonMap) (k k' : String) (v : FeatureVector)
    (h : k' ≠ k) : bmFind (bmSet m k v) k' = bmFind m k' := by
  induction m with
  | nil => simp [bmSet, bmFind, Ne.symm h]
  | cons e rest ih =>
    obtain ⟨k₀, w⟩ := e
    rw [bmSet]
    by_cases hlt : strLt k k₀
    · rw [if_pos hlt]
      simp only [bmFind]
      rw [if_neg (Ne.symm h)]
    · rw [if_neg hlt]
      by_cases heq : k₀ = k
      · have hne : k₀ ≠ k' := fun h0 => h (h0 ▸ heq)
        rw [if_pos heq]
        simp only [bmFind]
        rw [if_neg (heq ▸ Ne.symm h), if_neg hne]
      · rw [if_neg heq]
        simp only [bmFind]
        by_cases h0 : k₀ = k'
        · rw [if_pos h0, if_pos h0]
        · rw [if_neg h0, if_neg h0]; exact ih

/-- Claim C2 (amended): the observation cap check is `size() > 200`, so
`OnAdd` is a no-op only once more than 200 devices have been observed. -/
theorem onAdd_noop_past_cap (s : CControllerTransformer) (d : Nat) (bm : ButtonMap)
    (h : 200 < s.observedDevices.length) : OnAdd s d bm = s := by
  simp [OnAdd, h]

/-- Witness for `onAdd_noop_past_cap` at a state with 201 observed devices. -/
theorem onAdd_noop_past_cap_witness :
    OnAdd ⟨List.range 201, []⟩ 777 [("a", [scalarFeature "F" 0])]
      = ⟨List.range 201, []⟩ :=
  onAdd_noop_past_cap ⟨List.range 201, []⟩ 777 [("a", [scalarFeature "F" 0])]
    (by simp)

/-- Counterexample to claim C2 as stated: with exactly 200 devices observed the
check `200 > 200` fails, so the 201st distinct device is still observed and
still changes the Translation table. -/
theorem onAdd_observes_201st_device :
    (OnAdd ⟨List.range 200, []⟩ 777
        [("a", [scalarFeature "F" 0]), ("b", [scalarFeature "G" 0])]).observedDevices.length
      = 201
    ∧ (OnAdd ⟨List.range 200, []⟩ 777
        [("a", [scalarFeature "F" 0]), ("b", [scalarFeature "G" 0])]).controllerMap
      ≠ [] := by
  constructor
  · set_option maxRecDepth 4000 in decide
  · set_option maxRecDepth 4000 in decide

/-- Claim C5 (amended): a transform query never changes the observed-device
set and never changes an existing bucket; a query whose canonical key has no
bucket produces an empty result, but `operator[]` inserts an empty bucket for
that key into the Translation table. -/
theorem transform_state_effect (s : CControllerTransformer) (f t : String)
    (xs : FeatureVector) :
    (TransformFeatures s f t xs).1.observedDevices = s.observedDevices
    ∧ (TransformFeatures s f t xs).1.controllerMap =
        (if (cmFind s.controllerMap (transformNeedle f t)).isSome then s.controllerMap
         else s.controllerMap ++ [(transformNeedle f t, [])])
    ∧ (cmFind s.controllerMap (transformNeedle f t) = none →
        (TransformFeatures s f t xs).2 = []) := by
  cases hfind : cmFind s.controllerMap (transformNeedle f t) with
  | some fms =>
    cases hbest : selectBestMap fms with
    | none => simp [TransformFeatures, hfind, hbest]
    | some best => simp [TransformFeatures, hfind, hbest]
  | none =>
    simp [TransformFeatures, hfind, selectBestMap, selectBest]

/-- Witness for `transform_state_effect` on the empty transformer. -/
theorem transform_state_effect_witness :
    (TransformFeatures ⟨[], []⟩ "a" "b" []).2 = []
    ∧ (TransformFeatures ⟨[], []⟩ "a" "b" []).1.controllerMap
        = [(transformNeedle "a" "b", [])] := by
  refine ⟨(transform_state_effect ⟨[], []⟩ "a" "b" []).2.2 rfl, ?_⟩
  have h := (transform_state_effect ⟨[], []⟩ "a" "b" []).2.1
  rw [h]
  rfl

/-- Counterexample to claim C5 as stated: a query with no bucket does change
the Transformer's state (an empty bucket is inserted by `operator[]`). -/
theorem transform_mutates_table_on_missing_bucket :
    (TransformFeatures ⟨[], []⟩ "a" "b" []).1 ≠ ⟨[], []⟩ := by decide

/-- Claim C3 (amended): when there is no pending backup and the button map is
non-empty, `MapFeatures` then `RevertButtonMap` restores the map exactly and
reports success; `RevertButtonMap` fails exactly when the backup is empty. -/
theorem mapFeatures_revert (s : CButtonMap) (cid : String) (fs : FeatureVector)
    (h0 : s.originalButtonMap = []) (h1 : s.buttonMap ≠ []) :
    (RevertButtonMap (MapFeatures s cid fs)).1.buttonMap = s.buttonMap
    ∧ (RevertButtonMap (MapFeatures s cid fs)).2 = true
    ∧ ∀ t : CButtonMap, (RevertButtonMap t).2 = false ↔ t.originalButtonMap = [] := by
  refine ⟨?_, ?_, ?_⟩
  · simp [MapFeatures, RevertButtonMap, h0, h1]
  · simp [MapFeatures, RevertButtonMap, h0, h1]
  · intro t
    by_cases ht : t.originalButtonMap = [] <;> simp [RevertButtonMap, ht]

/-- Witness for `mapFeatures_revert` on a one-profile map. -/
theorem mapFeatures_revert_witness :
    (RevertButtonMap (MapFeatures ⟨[("c", [scalarFeature "a" 0])], [], false, 0⟩ "c"
        [scalarFeature "b" 1])).1.buttonMap = [("c", [scalarFeature "a" 0])]
    ∧ (RevertButtonMap (MapFeatures ⟨[("c", [scalarFeature "a" 0])], [], false, 0⟩ "c"
        [scalarFeature "b" 1])).2 = true :=
  ⟨(mapFeatures_revert ⟨[("c", [scalarFeature "a" 0])], [], false, 0⟩ "c"
      [scalarFeature "b" 1] rfl (by decide)).1,
   (mapFeatures_revert ⟨[("c", [scalarFeature "a" 0])], [], false, 0⟩ "c"
      [scalarFeature "b" 1] rfl (by decide)).2.1⟩

/-- Counterexample to claim C3 as stated: mapping onto an initially empty
button map leaves the backup empty, so the revert immediately after the
`MapFeatures` call fails and does not restore the empty map, even though a
modification is pending (`m_bModified` is set). -/
theorem mapFeatures_revert_counterexample :
    (RevertButtonMap (MapFeatures ⟨[], [], false, 0⟩ "c" [scalarFeature "b" 1])).2 = false
    ∧ (RevertButtonMap (MapFeatures ⟨[], [], false, 0⟩ "c"
        [scalarFeature "b" 1])).1.buttonMap ≠ ([] : ButtonMap)
    ∧ (MapFeatures ⟨[], [], false, 0⟩ "c" [scalarFeature "b" 1]).bModified = true := by
  decide

/-- Claim C7 (amended): `SaveButtonMap` reports failure and leaves all
in-memory state unchanged when the backing write fails; `ResetButtonMap` on a
profile whose feature-set is already empty reports failure and changes no
profile's features; but `ResetButtonMap` on a non-empty profile with a failing
backing write reports failure with the profile's features already cleared in
memory. -/
theorem save_reset_failure (s : CButtonMap) (cid : String) (ok : Bool) (now : Int) :
    SaveButtonMap s false now = (s, false)
    ∧ ((bmFind s.buttonMap cid).getD [] = [] →
        (ResetButtonMap s cid ok now).2 = false
        ∧ ∀ k, (bmFind (ResetButtonMap s cid ok now).1.buttonMap k).getD []
            = (bmFind s.buttonMap k).getD [])
    ∧ ((bmFind s.buttonMap cid).getD [] ≠ [] →
        (ResetButtonMap s cid false now).2 = false
        ∧ bmFind (ResetButtonMap s cid false now).1.buttonMap cid = some []) := by
  refine ⟨by simp [SaveButtonMap], ?_, ?_⟩
  · intro hempty
    have hres : ResetButtonMap s cid ok now
        = ({ s with buttonMap := bmSet s.buttonMap cid [] }, false) := by
      rw [ResetButtonMap]
      simp [hempty]
    rw [hres]
    refine ⟨rfl, ?_⟩
    intro k
    by_cases hk : k = cid
    · subst hk
      simp [bmFind_bmSet_self, hempty]
    · simp only []
      rw [bmFind_bmSet_ne _ _ _ _ hk]
  · intro hne
    have hres : ResetButtonMap s cid false now
        = (CButtonMap.mk
            (bmSet (bmSet s.buttonMap cid ((bmFind s.buttonMap cid).getD [])) cid [])
            s.originalButtonMap s.bModified s.timestamp, false) := by
      rw [ResetButtonMap]
      simp [hne, SaveButtonMap]
    rw [hres]
    exact ⟨rfl, by simp [bmFind_bmSet_self]⟩

/-- Witness for `save_reset_failure`: a failing save during reset reports
failure and the profile is left cleared. -/
theorem save_reset_failure_witness :
    (ResetButtonMap ⟨[("c", [scalarFeature "a" 0])], [], false, 0⟩ "c" false 0).2 = false
    ∧ bmFind (ResetButtonMap ⟨[("c", [scalarFeature "a" 0])], [], false, 0⟩ "c"
        false 0).1.buttonMap "c" = some [] :=
  (save_reset_failure ⟨[("c", [scalarFeature "a" 0])], [], false, 0⟩ "c" false 0).2.2
    (by decide)

/-- Counterexample to claim C7 as stated: after `ResetButtonMap` with a failing
backing write, the in-memory button map is not in its last-known-good state —
the profile's features are gone. -/
theorem reset_failed_save_loses_features :
    (ResetButtonMap ⟨[("c", [scalarFeature "a" 0])], [], false, 0⟩ "c" false 0).2 = false
    ∧ (ResetButtonMap ⟨[("c", [scalarFeature "a" 0])], [], false, 0⟩ "c"
        false 0).1.buttonMap ≠ [("c", [scalarFeature "a" 0])] := by
  decide

theorem sanitizePrimitives_mem_valid (earlier rest : List DriverPrimitive) :
    ∀ (done : List DriverPrimitive) (p : DriverPrimitive),
      p ∈ sanitizePrimitives earlier done rest → p.ptype ≠ PrimitiveType.unknown →
      p ∉ earlier ∧ p ∉ done := by
  induction rest with
  | nil =>
    intro done p hp _
    simp [sanitizePrimitives] at hp
  | cons q rest ih =>
    intro done p hp hv
    rw [sanitizePrimitives] at hp
    by_cases hq : q.ptype = PrimitiveType.unknown
    · rw [if_pos hq] at hp
      rcases List.mem_cons.mp hp with he | hp'
      · subst he; exact absurd hq hv
      · have h := ih (q :: done) p hp' hv
        exact ⟨h.1, fun hd => h.2 (List.mem_cons_of_mem _ hd)⟩
    · rw [if_neg hq] at hp
      by_cases hmem : q ∈ earlier ∨ q ∈ done
      · rw [if_pos hmem] at hp
        rcases List.mem_cons.mp hp with he | hp'
        · subst he; exact absurd rfl hv
        · have h := ih (DriverPrimitive.invalid :: done) p hp' hv
          exact ⟨h.1, fun hd => h.2 (List.mem_cons_of_mem _ hd)⟩
      · rw [if_neg hmem] at hp
        rcases List.mem_cons.mp hp with he | hp'
        · subst he
          exact ⟨fun he' => hmem (Or.inl he'), fun hd => hmem (Or.inr hd)⟩
        · have h := ih (q :: done) p hp' hv
          exact ⟨h.1, fun hd => h.2 (List.mem_cons_of_mem _ hd)⟩

theorem sanitizePrimitives_nodup (earlier rest : List DriverPrimitive) :
    ∀ done, NoDupValid (sanitizePrimitives earlier done rest) := by
  induction rest with
  | nil => intro done; simp [sanitizePrimitives, NoDupValid]
  | cons q rest ih =>
    intro done
    rw [sanitizePrimitives]
    by_cases hq : q.ptype = PrimitiveType.unknown
    · rw [if_pos hq]
      exact List.Pairwise.cons (fun x _ _ => hq) (ih (q :: done))
    · rw [if_neg hq]
      by_cases hmem : q ∈ earlier ∨ q ∈ done
      · rw [if_pos hmem]
        exact List.Pairwise.cons (fun x _ _ => rfl) (ih (DriverPrimitive.invalid :: done))
      · rw [if_neg hmem]
        refine List.Pairwise.cons ?_ (ih (q :: done))
        intro x hx he
        have hxv : x.ptype ≠ PrimitiveType.unknown := he ▸ hq
        have h := sanitizePrimitives_mem_valid earlier rest (q :: done) x hx hxv
        exfalso
        apply h.2
        rw [← he]
        exact List.mem_cons_self q done

theorem sanitizePrimitives_id (earlier rest : List DriverPrimitive) :
    ∀ done,
      (∀ p ∈ rest, p.ptype ≠ PrimitiveType.unknown → p ∉ earlier ∧ p ∉ done) →
      NoDupValid rest →
      sanitizePrimitives earlier done rest = rest := by
  induction rest with
  | nil => intro done _ _; rw [sanitizePrimitives]
  | cons q rest ih =>
    intro done h hnd
    rcases List.pairwise_cons.mp hnd with ⟨hq1, hrest⟩
    rw [sanitizePrimitives]
    by_cases hq : q.ptype = PrimitiveType.unknown
    · rw [if_pos hq]
      congr 1
      apply ih (q :: done) ?_ hrest
      intro p hp hv
      have h' := h p (List.mem_cons_of_mem _ hp) hv
      refine ⟨h'.1, fun hd => ?_⟩
      rcases List.mem_cons.mp hd with he | hd'
      · exact hv (by rw [he]; exact hq)
      · exact h'.2 hd'
    · rw [if_neg hq]
      have hq' := h q (List.mem_cons_self q rest) hq
      rw [if_neg (not_or.mpr hq')]
      congr 1
      apply ih (q :: done) ?_ hrest
      intro p hp hv
      have h' := h p (List.mem_cons_of_mem _ hp) hv
      refine ⟨h'.1, fun hd => ?_⟩
      rcases List.mem_cons.mp hd with he | hd'
      · exact hq (hq1 p hp he.symm)
      · exact h'.2 hd'

theorem allPrimitives_cons (f : JoystickFeature) (fs : List JoystickFeature) :
    allPrimitives (f :: fs) = f.primitives ++ allPrimitives fs := rfl

theorem sanitizePass_spec (rest : List JoystickFeature) :
    ∀ done : List JoystickFeature,
      (∀ f ∈ sanitizePass done rest,
        (∀ p : DriverPrimitive, p.ptype ≠ PrimitiveType.unknown →
          p ∈ f.primitives → p ∉ allPrimitives done)
        ∧ NoDupValid f.primitives)
      ∧ (sanitizePass done rest).Pairwise FeatureDisjoint := by
  induction rest with
  | nil =>
    intro done
    constructor
    · intro f hf; simp [sanitizePass] at hf
    · simp [sanitizePass]
  | cons f rest ih =>
    intro done
    rw [sanitizePass]
    constructor
    · intro g hg
      rcases List.mem_cons.mp hg with he | hg'
      · subst he
        constructor
        · intro p hv hp
          simp only [sanitizeFeature] at hp
          exact (sanitizePrimitives_mem_valid _ _ [] p hp hv).1
        · exact sanitizePrimitives_nodup _ _ []
      · have h := (ih (sanitizeFeature done f :: done)).1 g hg'
        refine ⟨?_, h.2⟩
        intro p hv hp hd
        have h2 := h.1 p hv hp
        rw [allPrimitives_cons] at h2
        exact h2 (List.mem_append_right _ hd)
    · refine List.Pairwise.cons ?_ (ih (sanitizeFeature done f :: done)).2
      intro g hg p hv hpf hpg
      have h := (ih (sanitizeFeature done f :: done)).1 g hg
      have h2 := h.1 p hv hpg
      rw [allPrimitives_cons] at h2
      exact h2 (List.mem_append_left _ hpf)

theorem sanitizePass_id (rest : List JoystickFeature) :
    ∀ done : List JoystickFeature,
      (∀ f ∈ rest,
        (∀ p : DriverPrimitive, p.ptype ≠ PrimitiveType.unknown →
          p ∈ f.primitives → p ∉ allPrimitives done)
        ∧ NoDupValid f.primitives) →
      rest.Pairwise FeatureDisjoint →
      sanitizePass done rest = rest := by
  induction rest with
  | nil => intro done _ _; rw [sanitizePass]
  | cons f rest ih =>
    intro done h hpw
    rcases List.pairwise_cons.mp hpw with ⟨hfd, hrest⟩
    have hf := h f (List.mem_cons_self f rest)
    have hid : sanitizeFeature done f = f := by
      rw [sanitizeFeature]
      have hsan : sanitizePrimitives (allPrimitives done) [] f.primitives = f.primitives := by
        apply sanitizePrimitives_id _ _ [] ?_ hf.2
        intro p hp hv
        exact ⟨hf.1 p hv hp, List.not_mem_nil p⟩
      rw [hsan]
    rw [sanitizePass, hid]
    congr 1
    apply ih (f :: done) ?_ hrest
    intro g hg
    have hgf := h g (List.mem_cons_of_mem _ hg)
    refine ⟨?_, hgf.2⟩
    intro p hv hp
    rw [allPrimitives_cons]
    intro hd
    rcases List.mem_append.mp hd with h1 | h2
    · exact hfd g hg p hv h1 hp
    · exact hgf.1 p hv hp h2

/-- Claim C1: after `Sanitize`, no two distinct surviving features share an
equal non-unknown primitive, no surviving feature holds the same non-unknown
primitive in two slots, and every surviving feature has at least one valid
(non-unknown) primitive. -/
theorem sanitize_postcondition (features : List JoystickFeature) :
    (Sanitize features).Pairwise FeatureDisjoint
    ∧ (∀ f ∈ Sanitize features, NoDupValid f.primitives)
    ∧ (∀ f ∈ Sanitize features, ∃ p ∈ f.primitives, p.ptype ≠ PrimitiveType.unknown) := by
  have hspec := sanitizePass_spec features []
  refine ⟨?_, ?_, ?_⟩
  · exact List.Pairwise.sublist (List.filter_sublist _) hspec.2
  · intro f hf
    exact (hspec.1 f (List.mem_of_mem_filter hf)).2
  · intro f hf
    have hv := List.of_mem_filter hf
    simpa [JoystickFeature.hasValidPrimitive, List.any_eq_true, bne_iff_ne] using hv

/-- Witness for `sanitize_postcondition` on a one-feature set. -/
theorem sanitize_postcondition_witness :
    ∃ p ∈ (scalarFeature "a" 0).primitives, p.ptype ≠ PrimitiveType.unknown :=
  (sanitize_postcondition [scalarFeature "a" 0]).2.2 (scalarFeature "a" 0) (by decide)

/-- Claim C8: `Sanitize` is idempotent. -/
theorem sanitize_idempotent (features : List JoystickFeature) :
    Sanitize (Sanitize features) = Sanitize features := by
  have hspec := sanitizePass_spec features []
  have hid : sanitizePass [] (Sanitize features) = Sanitize features := by
    apply sanitizePass_id
    · intro f hf
      refine ⟨?_, (hspec.1 f (List.mem_of_mem_filter hf)).2⟩
      intro p _ _
      simp [allPrimitives]
    · exact List.Pairwise.sublist (List.filter_sublist _) hspec.2
  rw [Sanitize, hid]
  apply List.filter_eq_self.mpr
  intro f hf
  exact List.of_mem_filter hf

theorem mem_insertByName {x f : JoystickFeature} :
    ∀ {l : List JoystickFeature}, x ∈ insertByName f l ↔ x = f ∨ x ∈ l := by
  intro l
  induction l with
  | nil => simp [insertByName]
  | cons g rest ih =>
    rw [insertByName]
    by_cases hc : strLt g.name f.name
    · rw [if_pos hc]
      simp only [List.mem_cons, ih]
      tauto
    · rw [if_neg hc]
      simp only [List.mem_cons]

theorem pairwise_insertByName (f : JoystickFeature) :
    ∀ l : List JoystickFeature,
      l.Pairwise (fun a b => a.name.data ≤ b.name.data) →
      (insertByName f l).Pairwise (fun a b => a.name.data ≤ b.name.data) := by
  intro l
  induction l with
  | nil => intro _; simp [insertByName]
  | cons g rest ih =>
    intro h
    rcases List.pairwise_cons.mp h with ⟨hg, hrest⟩
    rw [insertByName]
    by_cases hc : strLt g.name f.name
    · rw [if_pos hc]
      refine List.pairwise_cons.mpr ⟨?_, ih hrest⟩
      intro x hx
      rcases mem_insertByName.mp hx with he | hx'
      · subst he; exact le_of_lt hc
      · exact hg x hx'
    · rw [if_neg hc]
      refine List.pairwise_cons.mpr ⟨?_, h⟩
      intro x hx
      rcases List.mem_cons.mp hx with he | hx'
      · subst he; exact le_of_not_lt hc
      · exact le_trans (le_of_not_lt hc) (hg x hx')

theorem pairwise_sortByName (l : List JoystickFeature) :
    (sortByName l).Pairwise (fun a b => a.name.data ≤ b.name.data) := by
  induction l with
  | nil => simp [sortByName]
  | cons f rest ih => exact pairwise_insertByName f _ ih

theorem mem_sortByName {x : JoystickFeature} :
    ∀ {l : List JoystickFeature}, x ∈ sortByName l ↔ x ∈ l := by
  intro l
  induction l with
  | nil => simp [sortByName]
  | cons f rest ih =>
    rw [sortByName, mem_insertByName]
    simp [ih]

/-- Claim C10: after every `MapFeatures` call, the target profile's
feature-set is sorted by feature name ascending. -/
theorem mapFeatures_sorted (s : CButtonMap) (cid : String) (fs : FeatureVector) :
    ((bmFind (MapFeatures s cid fs).buttonMap cid).getD []).Pairwise
      (fun a b => a.name.data ≤ b.name.data) := by
  have hbm : (MapFeatures s cid fs).buttonMap
      = bmSet s.buttonMap cid (sortByName (Sanitize (fs ++
          ((bmFind s.buttonMap cid).getD []).filter
            (fun f => ! fs.any (fun newFeature => newFeature.name == f.name))))) := rfl
  rw [hbm, bmFind_bmSet_self]
  exact pairwise_sortByName _

/-- Claim C6 (amended): `MapFeatures` inserts the new features at the front of
the profile's feature-set, so under Sanitize's first-claim-wins rule a newly
mapped feature wins a primitive conflict against an existing feature: a new
feature with a valid primitive and no internal duplicates survives untouched,
and no other surviving feature keeps any of its valid primitives. -/
theorem mapFeatures_new_feature_wins (s : CButtonMap) (cid : String) (n : JoystickFeature)
    (h1 : n.hasValidPrimitive = true) (h2 : NoDupValid n.primitives) :
    n ∈ (bmFind (MapFeatures s cid [n]).buttonMap cid).getD []
    ∧ ∀ g ∈ (bmFind (MapFeatures s cid [n]).buttonMap cid).getD [],
        g ≠ n → ∀ p : DriverPrimitive, p.ptype ≠ PrimitiveType.unknown →
          p ∈ n.primitives → p ∉ g.primitives := by
  have hbm : (bmFind (MapFeatures s cid [n]).buttonMap cid).getD []
      = sortByName (Sanitize (n :: ((bmFind s.buttonMap cid).getD []).filter
          (fun f => ! List.any [n] (fun newFeature => newFeature.name == f.name)))) := by
    show (bmFind (bmSet s.buttonMap cid _) cid).getD [] = _
    rw [bmFind_bmSet_self]
    rfl
  rw [hbm]
  set rem := ((bmFind s.buttonMap cid).getD []).filter
    (fun f => ! List.any [n] (fun newFeature => newFeature.name == f.name)) with hrem
  have hn : sanitizeFeature [] n = n := by
    rw [sanitizeFeature]
    have hsan : sanitizePrimitives (allPrimitives []) [] n.primitives = n.primitives := by
      apply sanitizePrimitives_id _ _ [] ?_ h2
      intro p _ _
      exact ⟨by simp [allPrimitives], List.not_mem_nil p⟩
    rw [hsan]
  have hpass : sanitizePass [] (n :: rem) = n :: sanitizePass [n] rem := by
    rw [sanitizePass, hn]
  have hsan : Sanitize (n :: rem)
      = n :: (sanitizePass [n] rem).filter (fun f => f.hasValidPrimitive) := by
    rw [Sanitize, hpass, List.filter_cons_of_pos h1]
  have hdisj : ∀ g ∈ sanitizePass [n] rem, FeatureDisjoint n g := by
    have hspec := (sanitizePass_spec (n :: rem) []).2
    rw [hpass] at hspec
    exact fun g hg => (List.pairwise_cons.mp hspec).1 g hg
  constructor
  · rw [hsan, mem_sortByName]
    exact List.mem_cons_self _ _
  · intro g hg hgn p hv hpn
    rw [hsan, mem_sortByName] at hg
    rcases List.mem_cons.mp hg with he | hg'
    · exact absurd he hgn
    · exact hdisj g (List.mem_of_mem_filter hg') p hv hpn

/-- Witness for `mapFeatures_new_feature_wins`: the new feature survives the
merge intact. -/
theorem mapFeatures_new_feature_wins_witness :
    scalarFeature "b" 0 ∈ (bmFind (MapFeatures ⟨[("c", [scalarFeature "a" 0])], [], false, 0⟩
        "c" [scalarFeature "b" 0]).buttonMap "c").getD [] :=
  (mapFeatures_new_feature_wins ⟨[("c", [scalarFeature "a" 0])], [], false, 0⟩ "c"
    (scalarFeature "b" 0) (by decide) (by simp [NoDupValid, scalarFeature])).1

/-- Counterexample to claim C6 as stated: new features are inserted at the
front, not appended, so the newly mapped feature "b" wins the primitive
conflict against the existing differently-named feature "a", which is dropped. -/
theorem mapFeatures_existing_feature_loses :
    (bmFind (MapFeatures ⟨[("c", [scalarFeature "a" 0])], [], false, 0⟩ "c"
        [scalarFeature "b" 0]).buttonMap "c").getD [] = [scalarFeature "b" 0]
    ∧ scalarFeature "a" 0 ∉
        (bmFind (MapFeatures ⟨[("c", [scalarFeature "a" 0])], [], false, 0⟩ "c"
          [scalarFeature "b" 0]).buttonMap "c").getD [] := by
  decide

theorem selectBest_le (l : FeatureMaps) :
    ∀ (c : Nat) (m : FeatureMap), (∀ e ∈ l, e.2 ≤ c) →
      selectBest l c (some m) = some m := by
  induction l with
  | nil => intro c m _; rw [selectBest]
  | cons e rest ih =>
    intro c m h
    rw [selectBest, if_neg (not_lt.mpr (h e (List.mem_cons_self e rest)))]
    exact ih c m (fun z hz => h z (List.mem_cons_of_mem _ hz))

theorem selectBest_first_max (l1 : FeatureMaps) (m : FeatureMap) (c : Nat)
    (l2 : FeatureMaps) (h2 : ∀ e ∈ l2, e.2 ≤ c) :
    ∀ (mc : Nat) (best : Option FeatureMap), (∀ e ∈ l1, e.2 < c) → mc < c →
      selectBest (l1 ++ (m, c) :: l2) mc best = some m := by
  induction l1 with
  | nil =>
    intro mc best _ hmc
    rw [List.nil_append, selectBest, if_pos hmc]
    exact selectBest_le l2 c m h2
  | cons e l1 ih =>
    intro mc best h1 hmc
    rw [List.cons_append, selectBest]
    by_cases hc : mc < e.2
    · rw [if_pos hc]
      exact ih e.2 (some e.1) (fun z hz => h1 z (List.mem_cons_of_mem _ hz))
        (h1 e (List.mem_cons_self e l1))
    · rw [if_neg hc]
      exact ih mc best (fun z hz => h1 z (List.mem_cons_of_mem _ hz)) hmc

/-- Claim C4: `TransformFeatures` applies the Translation set with the
strictly greatest observation count in the bucket; on ties the first in bucket
iteration order wins (the bucket is written as a prefix whose counts are
strictly below `c`, the winning entry, and a suffix whose counts are at most
`c`). -/
theorem transform_applies_most_frequent (s : CControllerTransformer)
    (fromController toController : String) (xs : FeatureVector)
    (l1 l2 : FeatureMaps) (m : FeatureMap) (c : Nat)
    (hfind : cmFind s.controllerMap (transformNeedle fromController toController)
      = some (l1 ++ (m, c) :: l2))
    (hc : 0 < c) (h1 : ∀ e ∈ l1, e.2 < c) (h2 : ∀ e ∈ l2, e.2 ≤ c) :
    selectBestMap (l1 ++ (m, c) :: l2) = some m
    ∧ (TransformFeatures s fromController toController xs).2
      = applyTranslation (! decide (strLt fromController toController)) m xs := by
  have hsel : selectBestMap (l1 ++ (m, c) :: l2) = some m :=
    selectBest_first_max l1 m c l2 h2 0 none h1 hc
  refine ⟨hsel, ?_⟩
  simp [TransformFeatures, hfind, selectBestMap] at hsel ⊢
  simp [hsel]

/-- Witness for `transform_applies_most_frequent`: with observation counts 3
and 5 in the bucket, the count-5 Translation set is selected and applied. -/
theorem transform_applies_most_frequent_witness :
    selectBestMap [([⟨"X", "P"⟩], 3), ([⟨"X", "Q"⟩], 5)] = some [⟨"X", "Q"⟩]
    ∧ (TransformFeatures ⟨[], [(("a", "b"), [([⟨"X", "P"⟩], 3), ([⟨"X", "Q"⟩], 5)])]⟩
        "a" "b" [scalarFeature "X" 0]).2
      = applyTranslation (! decide (strLt "a" "b")) [⟨"X", "Q"⟩] [scalarFeature "X" 0] :=
  transform_applies_most_frequent
    ⟨[], [(("a", "b"), [([⟨"X", "P"⟩], 3), ([⟨"X", "Q"⟩], 5)])]⟩ "a" "b"
    [scalarFeature "X" 0] [([⟨"X", "P"⟩], 3)] [] [⟨"X", "Q"⟩] 5
    (by decide) (by decide) (by decide) (by decide)

/-- Claim C9: observing one device whose button map holds profile `A` with
features `f1, f2` and profile `B` with `g1` primitive-matching `f1` makes both
transform directions succeed and stay consistent: the swap flag makes the
stored `(from, to)` entries be read in reverse when the query direction
differs from the canonical (lexicographically ordered) key direction. -/
theorem observe_transform_roundtrip
    (A B : String) (d : Nat) (f1 f2 g1 x y : JoystickFeature)
    (hAB : strLt A B)
    (hm : featureMatch f1 g1 = true)
    (hnm : featureMatch f2 g1 = false)
    (hx : x.name = g1.name) (hy : y.name = f1.name) :
    (TransformFeatures (OnAdd ⟨[], []⟩ d [(A, [f1, f2]), (B, [g1])]) B A [x]).2
      = [{ x with name := f1.name }]
    ∧ (TransformFeatures (OnAdd ⟨[], []⟩ d [(A, [f1, f2]), (B, [g1])]) A B [y]).2
      = [{ y with name := g1.name }] := by
  have hBA : ¬ strLt B A := lt_asymm hAB
  have hAA : ¬ strLt A A := lt_irrefl _
  have hBB : ¬ strLt B B := lt_irrefl _
  have hs : OnAdd ⟨[], []⟩ d [(A, [f1, f2]), (B, [g1])]
      = ⟨[d], [((A, B), [([⟨f1.name, g1.name⟩], 1)])]⟩ := by
    rw [OnAdd]
    simp [decide_eq_true hAB, decide_eq_false hAA, decide_eq_false hBB,
      AddControllerMap, featureMapInsert, fmsIncrement, cmFind, cmSet, hm, hnm]
  rw [hs]
  constructor
  · rw [TransformFeatures]
    simp [transformNeedle, decide_eq_false hBA, cmFind, selectBestMap, selectBest,
      applyTranslation, List.find?, hx]
  · rw [TransformFeatures]
    simp [transformNeedle, decide_eq_true hAB, cmFind, selectBestMap, selectBest,
      applyTranslation, List.find?, hy]

/-- Witness for `observe_transform_roundtrip` on concrete profiles `"a"`,
`"b"` and scalar features. -/
theorem observe_transform_roundtrip_witness :
    (TransformFeatures (OnAdd ⟨[], []⟩ 7 [("a", [scalarFeature "F" 1, scalarFeature "F2" 2]),
        ("b", [scalarFeature "G" 1])]) "b" "a" [scalarFeature "G" 9]).2
      = [{ scalarFeature "G" 9 with name := (scalarFeature "F" 1).name }]
    ∧ (TransformFeatures (OnAdd ⟨[], []⟩ 7 [("a", [scalarFeature "F" 1, scalarFeature "F2" 2]),
        ("b", [scalarFeature "G" 1])]) "a" "b" [scalarFeature "F" 9]).2
      = [{ scalarFeature "F" 9 with name := (scalarFeature "G" 1).name }] :=
  observe_transform_roundtrip "a" "b" 7 (scalarFeature "F" 1) (scalarFeature "F2" 2)
    (scalarFeature "G" 1) (scalarFeature "G" 9) (scalarFeature "F" 9)
    (by decide) (by decide) (by decide) rfl rfl

end JOYSTICK
